import Mathlib

/-!
Verification of the `autobuffer` utility (Go, `main.go`).

The program downloads a remote file over HTTP into a local file.  It samples
a fixed-size prefix of the body to estimate bandwidth, computes a buffer
time, writes the last chunk of the resource first, seeks back to offset 0,
and then copies the remainder chunk by chunk while a readiness check fires a
one-shot "ready to play" message.

Shallow embedding conventions:
- The remote resource is a total function `netData : Nat -> Nat` together
  with a length `netSize`; the transport is the clean deterministic one the
  spec calls a "synthetic fixed-rate transport ... served without transport
  errors": a `Read` at position `p` for `k` bytes yields
  `min k (netSize - p)` bytes, and `(0, io.EOF)` once `p = netSize`.
- The local file is a byte function plus a high-water size; `os.Create`
  yields an empty file, and holes read as zero.
- Wall-clock time in the copy loop is abstracted into a Boolean oracle
  `tu : Nat -> Bool` saying, for each loop iteration index, whether
  `time.Since(tstart).Seconds() > bufferTime` holds at the top of that
  iteration.
- Write faults on the local file are injected via `writeFails`, indexed by
  the ordinal of the `FileStream.Write` call.
- Go `float64` arithmetic for the buffer-time formula is modelled by exact
  rationals.
-/

/-- Constant `chunkSize = 10000` from `main.go` (`const chunkSize = 10000`). -/
def chunkSize : Nat := 10000

/-- Bandwidth sample size: `sz := chunkSize * 2000` in `getBandwidth`. -/
def sampleSize : Nat := chunkSize * 2000

/-- Constant `fudgeFactor = 1.2` from `main.go`, as an exact rational (the Go source
writes the untyped constant `1.2`; we model `float64` by `Rat`). -/
def fudgeFactor : Rat := 1.2

/-- Local `downloadTime := (float64(vs.Size) / bw) * fudgeFactor` from
`StartStream`. -/
def downloadTime (totalSize bandwidth : Rat) : Rat :=
  totalSize / bandwidth * fudgeFactor

/-- Local `bufferTime := math.Max(0, downloadTime-vs.Duration.Seconds())` from
`StartStream`. -/
def bufferTime (totalSize bandwidth targetDuration : Rat) : Rat :=
  max 0 (downloadTime totalSize bandwidth - targetDuration)

/-- Go `time.Second` as a `time.Duration` (nanoseconds, int64). -/
def goTimeSecond : Int := 1000000000

/-- Errors surfaced by the embedded I/O operations.  `eof` is `io.EOF`,
`unexpectedEOF` is `io.ErrUnexpectedEOF`, `seekErr` a seek failure,
`writeErr` a local-file write failure.  `fuelExhausted` is a model artifact:
the Go loop is unbounded, the embedding runs it on fuel, and every theorem
below supplies enough fuel for it never to appear. -/
inductive GoErr where
  | eof
  | unexpectedEOF
  | seekErr
  | writeErr
  | fuelExhausted
deriving DecidableEq, Repr

/-- State of one transfer session: the remote resource and the network read
position (the `httprs` reader), the local file contents / size / position,
the ordered log of successful local-file writes as `(offset, length)`
pairs, the injected write-fault schedule with its call counter, and the
number of times the "ready to play" message has been printed. -/
structure StreamState where
  netData : Nat → Nat
  netSize : Nat
  netPos : Nat
  fileData : Nat → Nat
  fileSize : Nat
  filePos : Nat
  events : List (Nat × Nat)
  writeFails : Nat → Bool
  writeCount : Nat
  readyCount : Nat

/-- A fresh session over a resource of the given contents and size, as
`NewVideoStream` builds it: positions at 0, output file just created
(empty), no writes yet, nothing printed, no injected write faults. -/
def initState (data : Nat → Nat) (size : Nat) : StreamState :=
  { netData := data
    netSize := size
    netPos := 0
    fileData := fun _ => 0
    fileSize := 0
    filePos := 0
    events := []
    writeFails := fun _ => false
    writeCount := 0
    readyCount := 0 }

/-- Model of `io.ReadFull(vs.fs, buf)` with `len` the buffer length, over the clean
transport: a full read advances `netPos` and returns no error; a short read
(position strictly inside the resource but fewer than `len` bytes left)
fills only the available bytes, leaves the rest of the buffer unchanged
(stale), and returns `io.ErrUnexpectedEOF`; a read at end-of-stream returns
`io.EOF`.  Result: `(buffer, bytes read, error, state)`. -/
def readFull (s : StreamState) (buf : Nat → Nat) (len : Nat) :
    (Nat → Nat) × Nat × Option GoErr × StreamState :=
  if s.netPos + len ≤ s.netSize then
    ((fun i => if i < len then s.netData (s.netPos + i) else buf i), len,
      none, { s with netPos := s.netPos + len })
  else if s.netPos < s.netSize then
    ((fun i => if i < s.netSize - s.netPos then s.netData (s.netPos + i) else buf i),
      s.netSize - s.netPos, some .unexpectedEOF, { s with netPos := s.netSize })
  else
    (buf, 0, some .eof, s)

/-- Model of `FileStream.Write`: writes `len` bytes of `buf` at the current file
position, extending the file's high-water size, and logs the write; on an
injected fault it returns `(0, error)` and changes no file state (only the
call counter advances).  Result: `(state, bytes written, error)`. -/
def writeFS (s : StreamState) (buf : Nat → Nat) (len : Nat) :
    StreamState × Nat × Option GoErr :=
  if s.writeFails s.writeCount then
    ({ s with writeCount := s.writeCount + 1 }, 0, some .writeErr)
  else
    ({ s with
        fileData := fun i =>
          if s.filePos ≤ i ∧ i < s.filePos + len then buf (i - s.filePos)
          else s.fileData i
        fileSize := max s.fileSize (s.filePos + len)
        filePos := s.filePos + len
        events := s.events ++ [(s.filePos, len)]
        writeCount := s.writeCount + 1 }, len, none)

/-- Model of `FileStream.Seek(offset, 0)`: seeks both the `httprs` reader and the
local file to the same absolute offset; a negative offset is a seek
error (in which case neither position moves, matching the early return). -/
def seekFS (s : StreamState) (offset : Int) : StreamState × Option GoErr :=
  if offset < 0 then (s, some .seekErr)
  else ({ s with netPos := offset.toNat, filePos := offset.toNat }, none)

/-- The readiness check at the top of each copy-loop iteration:
`if time.Since(tstart).Seconds() > bufferTime && !readynotified` prints the
"ready to play" message and sets the flag.  The clock comparison is the
oracle `tu` applied to the iteration index. -/
def readyStep (tu : Nat → Bool) (iter : Nat) (notified : Bool)
    (s : StreamState) : StreamState × Bool :=
  if tu iter && !notified then
    ({ s with readyCount := s.readyCount + 1 }, true)
  else (s, notified)

/-- The `for !done` copy loop of `StartStream`, on fuel: each iteration runs
the readiness check, then `io.ReadFull(vs.fs, chunk)`.  On
`io.ErrUnexpectedEOF` it sets `done`, still executes `vs.fs.Write(chunk)`
(whose count and error the source discards), and returns `nil`; on any
other error (including `io.EOF`) it returns that error without writing; on
a full read it executes `vs.fs.Write(chunk)` (count and error again
discarded) and continues with the same chunk buffer. -/
def copyLoop (tu : Nat → Bool) :
    Nat → Nat → Bool → (Nat → Nat) → StreamState → StreamState × Option GoErr
  | 0, _, _, _, s => (s, some .fuelExhausted)
  | fuel + 1, iter, notified, chunk, s =>
    let s1 := (readyStep tu iter notified s).1
    let n1 := (readyStep tu iter notified s).2
    let r := readFull s1 chunk chunkSize
    if r.2.2.1 = some .unexpectedEOF then ((writeFS r.2.2.2 r.1 chunkSize).1, none)
    else if r.2.2.1 ≠ none then (r.2.2.2, r.2.2.1)
    else copyLoop tu fuel (iter + 1) n1 r.1 (writeFS r.2.2.2 r.1 chunkSize).1

/-- Model of `getBandwidth`: reads `sampleSize` bytes into a fresh zeroed buffer with
`io.ReadFull`; any error (including a short read on a small resource) is
returned as `(0, err)`.  The bandwidth value itself is wall-clock derived
and is abstracted away; we keep the error and the state. -/
def getBandwidth (s : StreamState) : StreamState × Option GoErr :=
  let r := readFull s (fun _ => 0) sampleSize
  if r.2.2.1 ≠ none then (r.2.2.2, r.2.2.1)
  else (r.2.2.2, none)

/-- Everything `StartStream` does before entering the copy loop: bandwidth
sampling, then `Seek(vs.Size-chunkSize, 0)`, then
`io.ReadFull(vs.fs, chunk)` for the last chunk (the source discards its
count and error), then `vs.fs.Write(chunk)` (whose error the source does
check), then `Seek(0, 0)`.  Returns the chunk buffer (which the copy loop
reuses), the state, and the error if any step failed. -/
def preLoop (s : StreamState) : (Nat → Nat) × StreamState × Option GoErr :=
  let g := getBandwidth s
  if g.2 ≠ none then ((fun _ => 0), g.1, g.2)
  else
    let k := seekFS g.1 ((g.1.netSize : Int) - (chunkSize : Int))
    if k.2 ≠ none then ((fun _ => 0), k.1, k.2)
    else
      let r := readFull k.1 (fun _ => 0) chunkSize
      let w := writeFS r.2.2.2 r.1 chunkSize
      if w.2.2 ≠ none then (r.1, w.1, w.2.2)
      else
        let k2 := seekFS w.1 0
        (r.1, k2.1, k2.2)

/-- Model of `VideoStreamer.StartStream`: the pre-loop phase followed by the copy
loop.  The fuel `netSize / chunkSize + 2` strictly exceeds the number of
iterations the loop can perform from offset 0, so the `fuelExhausted`
artifact is unreachable on the runs below. -/
def startStream (tu : Nat → Bool) (s : StreamState) : StreamState × Option GoErr :=
  let p := preLoop s
  if p.2.2 ≠ none then (p.2.1, p.2.2)
  else copyLoop tu ((p.2.1).netSize / chunkSize + 2) 0 false p.1 p.2.1

/-- Timing oracle for a run in which the copy loop finishes before
`bufferTime` has elapsed: the clock comparison is false at every
iteration. -/
def tuFalse : Nat → Bool := fun _ => false

/-- The write log of `k` consecutive chunk-sized writes starting at offset
`p`: the shape the copy loop produces. -/
def chunkEvents : Nat → Nat → List (Nat × Nat)
  | _, 0 => []
  | p, k + 1 => (p, chunkSize) :: chunkEvents (p + chunkSize) k

/-- Decimal digit-string parser used by the `strconv.Atoi` model. -/
def parseDigits (cs : List Char) : Option Nat :=
  if cs.isEmpty then none
  else
    cs.foldl
      (fun acc c =>
        match acc with
        | none => none
        | some n => if c.isDigit then some (n * 10 + (c.toNat - 48)) else none)
      (some 0)

/-- Model of `strconv.Atoi`: an optional sign followed by at least one decimal
digit; anything else is an error (`none`).  The Go 64-bit range check is
not modelled (irrelevant to the claims). -/
def goAtoi (str : String) : Option Int :=
  match str.toList with
  | '+' :: rest => (parseDigits rest).map Int.ofNat
  | '-' :: rest => (parseDigits rest).map (fun n => -(n : Int))
  | cs => (parseDigits cs).map Int.ofNat

/-- Outcome of `NewVideoStream`, paired below with whether the output file
was created (a handle opened) by the time the outcome is reached. -/
inductive ConstructResult where
  | errConn
  | errFileCreate
  | panicIndexOutOfRange
  | errAtoi
  | ok (size : Int)
deriving DecidableEq, Repr

/-- Model of `NewVideoStream`, with the fallible external effects (building the
request, performing it, creating the file) injected as Booleans and the
response's `Content-Length` values as `res.Header["Content-Length"]` (a
missing header key yields the empty list, Go's nil slice).  The source
creates the output file FIRST and only then evaluates
`res.Header["Content-Length"][0]`; indexing the nil slice at 0 when the
header is missing is a Go index-out-of-range panic.  Returns the outcome
and whether the output file had been created. -/
def newVideoStream (reqFails doFails createFails : Bool)
    (contentLength : List String) : ConstructResult × Bool :=
  if reqFails then (.errConn, false)
  else if doFails then (.errConn, false)
  else if createFails then (.errFileCreate, false)
  else
    match contentLength with
    | [] => (.panicIndexOutOfRange, true)
    | v :: _ =>
      match goAtoi v with
      | none => (.errAtoi, true)
      | some sz => (.ok sz, true)

/-- Outcome of `main`: printed usage and returned; panicked on a nil
pointer dereference; or ran to the end with the copy phase's error (if
any) printed. -/
inductive MainOutcome where
  | usage
  | panicNilDeref
  | done (streamErr : Option GoErr)
deriving DecidableEq

/-- Model of `main` after flag parsing: `if *videourl == "" || *duration == time.Second`
prints usage and returns.  Otherwise it calls `NewVideoStream`; on error it
prints the error but does NOT return, and then unconditionally evaluates
`vs.StartStream()`.  When construction failed, `vs` is `nil`, and
`StartStream`'s body immediately dereferences the receiver
(`vs.getBandwidth` reads `vs.fs`), which is a nil-pointer-dereference
panic in Go.  Construction success is injected as `constructOk` (it
depends on external network and filesystem effects), and on success the
session state is `s`. -/
def mainRun (url : String) (durationNs : Int) (constructOk : Bool)
    (tu : Nat → Bool) (s : StreamState) : MainOutcome :=
  if url = "" ∨ durationNs = goTimeSecond then .usage
  else if constructOk then .done (startStream tu s).2
  else .panicNilDeref

/-- A clean 20,010,001-byte resource: one byte more than the bandwidth
sample plus one final chunk, so the copy loop ends on a partial chunk. -/
def demoA : StreamState := initState (fun _ => 0) 20010001

/-- A clean 20,020,000-byte resource: the bandwidth sample plus exactly two
chunks, so the stream length is an exact multiple of `chunkSize`. -/
def demoB : StreamState := initState (fun _ => 0) 20020000

/-- A session, positioned at the top of the copy loop over a 10,001-byte
remainder, whose local file rejects every write (e.g. a full disk). -/
def demoC : StreamState :=
  { initState (fun _ => 0) 10001 with writeFails := fun _ => true }

/-! Helper lemmas: case characterizations of the I/O primitives. -/

/-- A full `io.ReadFull`: enough bytes remain, so the buffer prefix is
filled, no error, and the network position advances by `len`. -/
theorem readFull_full (s : StreamState) (buf : Nat → Nat) (len : Nat)
    (h : s.netPos + len ≤ s.netSize) :
    readFull s buf len =
      ((fun i => if i < len then s.netData (s.netPos + i) else buf i), len,
        none, { s with netPos := s.netPos + len }) := by
  simp [readFull, h]

/-- A short `io.ReadFull`: only the bytes up to end-of-stream are placed in
the buffer, the rest stays stale, and `io.ErrUnexpectedEOF` is returned. -/
theorem readFull_short (s : StreamState) (buf : Nat → Nat) (len : Nat)
    (h1 : s.netPos < s.netSize) (h2 : s.netSize < s.netPos + len) :
    readFull s buf len =
      ((fun i => if i < s.netSize - s.netPos then s.netData (s.netPos + i) else buf i),
        s.netSize - s.netPos, some .unexpectedEOF,
        { s with netPos := s.netSize }) := by
  rw [readFull, if_neg (by omega), if_pos h1]

/-- Reading with `io.ReadFull` at end-of-stream returns `io.EOF` and changes nothing. -/
theorem readFull_eof (s : StreamState) (buf : Nat → Nat) (len : Nat)
    (h1 : s.netSize ≤ s.netPos) (h2 : 0 < len) :
    readFull s buf len = (buf, 0, some .eof, s) := by
  rw [readFull, if_neg (by omega), if_neg (by omega)]

/-- A successful `FileStream.Write` of `len` bytes. -/
theorem writeFS_ok (s : StreamState) (buf : Nat → Nat) (len : Nat)
    (h : s.writeFails s.writeCount = false) :
    writeFS s buf len =
      ({ s with
          fileData := fun i =>
            if s.filePos ≤ i ∧ i < s.filePos + len then buf (i - s.filePos)
            else s.fileData i
          fileSize := max s.fileSize (s.filePos + len)
          filePos := s.filePos + len
          events := s.events ++ [(s.filePos, len)]
          writeCount := s.writeCount + 1 }, len, none) := by
  simp [writeFS, h]

/-- The readiness check never changes any field other than `readyCount`. -/
theorem readyStep_fields (tu : Nat → Bool) (iter : Nat) (notified : Bool)
    (s : StreamState) :
    ((readyStep tu iter notified s).1).netData = s.netData ∧
    ((readyStep tu iter notified s).1).netSize = s.netSize ∧
    ((readyStep tu iter notified s).1).netPos = s.netPos ∧
    ((readyStep tu iter notified s).1).fileSize = s.fileSize ∧
    ((readyStep tu iter notified s).1).filePos = s.filePos ∧
    ((readyStep tu iter notified s).1).events = s.events ∧
    ((readyStep tu iter notified s).1).writeFails = s.writeFails ∧
    ((readyStep tu iter notified s).1).writeCount = s.writeCount := by
  unfold readyStep
  split <;> exact ⟨rfl, rfl, rfl, rfl, rfl, rfl, rfl, rfl⟩

/-- With the all-false timing oracle the readiness check is the identity. -/
theorem readyStep_tuFalse (iter : Nat) (notified : Bool) (s : StreamState) :
    readyStep tuFalse iter notified s = (s, notified) := by
  simp [readyStep, tuFalse]

/-- Characterization of the copy loop on a fault-free session whose
remaining stream length is `q` full chunks plus a strictly partial final
chunk: the loop returns `nil` after `q + 1` chunk-sized writes (the last
one the partial data padded with stale buffer bytes), so the file position
advances by `chunkSize * (q+1)` and the write log grows by `q + 1`
consecutive chunk records. -/
theorem copyLoop_partial_ok (tu : Nat → Bool) :
    ∀ (q fuel iter : Nat) (notified : Bool) (chunk : Nat → Nat) (s : StreamState),
      (∀ n, s.writeFails n = false) →
      s.netPos + chunkSize * q < s.netSize →
      s.netSize < s.netPos + chunkSize * (q + 1) →
      q + 1 ≤ fuel →
      (copyLoop tu fuel iter notified chunk s).2 = none ∧
      ((copyLoop tu fuel iter notified chunk s).1).filePos
          = s.filePos + chunkSize * (q + 1) ∧
      ((copyLoop tu fuel iter notified chunk s).1).fileSize
          = max s.fileSize (s.filePos + chunkSize * (q + 1)) ∧
      ((copyLoop tu fuel iter notified chunk s).1).events
          = s.events ++ chunkEvents s.filePos (q + 1) := by
  intro q
  induction q with
  | zero =>
    intro fuel iter notified chunk s hwf h1 h2 hf
    match fuel, hf with
    | fuel + 1, _ =>
      obtain ⟨hnd, hns, hnp, hfs, hfp, hev, hwfp, hwc⟩ := readyStep_fields tu iter notified s
      simp only [copyLoop]
      rw [readFull_short _ _ _ (by omega) (by simp only [chunkSize] at h2 ⊢; omega)]
      simp only [ne_eq, reduceCtorEq, not_false_iff, if_true, if_pos rfl]
      rw [writeFS_ok _ _ _ (by rw [hwfp]; exact hwf _)]
      refine ⟨trivial, ?_, ?_, ?_⟩ <;>
        simp [hfp, hfs, hns, hev, chunkEvents]
  | succ q ih =>
    intro fuel iter notified chunk s hwf h1 h2 hf
    match fuel, hf with
    | fuel + 1, _ =>
      obtain ⟨hnd, hns, hnp, hfs, hfp, hev, hwfp, hwc⟩ := readyStep_fields tu iter notified s
      set s1 := (readyStep tu iter notified s).1 with hs1
      set n1 := (readyStep tu iter notified s).2 with hn1
      have hfull : s1.netPos + chunkSize ≤ s1.netSize := by
        rw [hnp, hns]; simp only [chunkSize] at h1 ⊢; omega
      set r := readFull s1 chunk chunkSize with hr
      have hrEq : r = ((fun i => if i < chunkSize then s1.netData (s1.netPos + i) else chunk i),
          chunkSize, none, { s1 with netPos := s1.netPos + chunkSize }) := by
        rw [hr]; exact readFull_full s1 chunk chunkSize hfull
      have herr : r.2.2.1 = none := by rw [hrEq]
      have hr222 : r.2.2.2 = { s1 with netPos := s1.netPos + chunkSize } := by rw [hrEq]
      set s3 := (writeFS r.2.2.2 r.1 chunkSize).1 with hs3
      have hwcond : (r.2.2.2).writeFails (r.2.2.2).writeCount = false := by
        rw [hr222]; simp only []; rw [hwfp]; exact hwf _
      have hs3Eq := writeFS_ok r.2.2.2 r.1 chunkSize hwcond
      have hs3netPos : s3.netPos = s.netPos + chunkSize := by
        rw [hs3, hs3Eq]; simp [hr222, hnp]
      have hs3netSize : s3.netSize = s.netSize := by
        rw [hs3, hs3Eq]; simp [hr222, hns]
      have hs3filePos : s3.filePos = s.filePos + chunkSize := by
        rw [hs3, hs3Eq]; simp [hr222, hfp]
      have hs3fileSize : s3.fileSize = max s.fileSize (s.filePos + chunkSize) := by
        rw [hs3, hs3Eq]; simp [hr222, hfs, hfp]
      have hs3events : s3.events = s.events ++ [(s.filePos, chunkSize)] := by
        rw [hs3, hs3Eq]; simp [hr222, hev, hfp]
      have hs3wf : ∀ n, s3.writeFails n = false := by
        intro n
        rw [hs3, hs3Eq]; simp only [hr222]; rw [hwfp]; exact hwf n
      have hloop : copyLoop tu (fuel + 1) iter notified chunk s
          = copyLoop tu fuel (iter + 1) n1 r.1 s3 := by
        simp only [copyLoop]
        rw [← hs1, ← hn1, ← hr, herr]
        simp
      rw [hloop]
      obtain ⟨ha, hb, hc, hd⟩ := ih fuel (iter + 1) n1 r.1 s3 hs3wf
        (by rw [hs3netPos, hs3netSize]; simp only [chunkSize] at h1 ⊢; omega)
        (by rw [hs3netPos, hs3netSize]; simp only [chunkSize] at h2 ⊢; omega)
        (by omega)
      refine ⟨ha, ?_, ?_, ?_⟩
      · rw [hb, hs3filePos]; simp only [chunkSize]; omega
      · rw [hc, hs3fileSize, hs3filePos]; simp only [chunkSize]; omega
      · rw [hd, hs3events, hs3filePos, List.append_assoc]
        simp [chunkEvents]

/-- Writing with `FileStream.Write` never changes the readiness-message count. -/
theorem writeFS_readyCount (s : StreamState) (buf : Nat → Nat) (len : Nat) :
    ((writeFS s buf len).1).readyCount = s.readyCount := by
  unfold writeFS; split <;> rfl

/-- Reading with `io.ReadFull` never changes the readiness-message count. -/
theorem readFull_readyCount (s : StreamState) (buf : Nat → Nat) (len : Nat) :
    ((readFull s buf len).2.2.2).readyCount = s.readyCount := by
  unfold readFull; split
  · rfl
  · split <;> rfl

/-- Seeking never changes the readiness-message count. -/
theorem seekFS_readyCount (s : StreamState) (offset : Int) :
    ((seekFS s offset).1).readyCount = s.readyCount := by
  unfold seekFS; split <;> rfl

/-- Characterization of the copy loop when the remaining stream length is
an exact multiple of `chunkSize`: after the `q` full chunks the final
`io.ReadFull` reads zero bytes and returns `io.EOF`, which the loop
surfaces as an error (`return err`), since only `io.ErrUnexpectedEOF` is
treated as clean end-of-stream. -/
theorem copyLoop_exact_eof (tu : Nat → Bool) :
    ∀ (q fuel iter : Nat) (notified : Bool) (chunk : Nat → Nat) (s : StreamState),
      (∀ n, s.writeFails n = false) →
      s.netPos + chunkSize * q = s.netSize →
      q + 1 ≤ fuel →
      (copyLoop tu fuel iter notified chunk s).2 = some .eof := by
  intro q
  induction q with
  | zero =>
    intro fuel iter notified chunk s hwf h1 hf
    match fuel, hf with
    | fuel + 1, _ =>
      obtain ⟨hnd, hns, hnp, hfs, hfp, hev, hwfp, hwc⟩ := readyStep_fields tu iter notified s
      simp only [chunkSize] at h1
      simp only [copyLoop]
      rw [readFull_eof _ _ _ (by omega) (by simp [chunkSize])]
      simp
  | succ q ih =>
    intro fuel iter notified chunk s hwf h1 hf
    match fuel, hf with
    | fuel + 1, _ =>
      obtain ⟨hnd, hns, hnp, hfs, hfp, hev, hwfp, hwc⟩ := readyStep_fields tu iter notified s
      set s1 := (readyStep tu iter notified s).1 with hs1
      set n1 := (readyStep tu iter notified s).2 with hn1
      have hfull : s1.netPos + chunkSize ≤ s1.netSize := by
        rw [hnp, hns]; simp only [chunkSize] at h1 ⊢; omega
      set r := readFull s1 chunk chunkSize with hr
      have hrEq : r = ((fun i => if i < chunkSize then s1.netData (s1.netPos + i) else chunk i),
          chunkSize, none, { s1 with netPos := s1.netPos + chunkSize }) := by
        rw [hr]; exact readFull_full s1 chunk chunkSize hfull
      have herr : r.2.2.1 = none := by rw [hrEq]
      have hr222 : r.2.2.2 = { s1 with netPos := s1.netPos + chunkSize } := by rw [hrEq]
      set s3 := (writeFS r.2.2.2 r.1 chunkSize).1 with hs3
      have hwcond : (r.2.2.2).writeFails (r.2.2.2).writeCount = false := by
        rw [hr222]; simp only []; rw [hwfp]; exact hwf _
      have hs3Eq := writeFS_ok r.2.2.2 r.1 chunkSize hwcond
      have hs3netPos : s3.netPos = s.netPos + chunkSize := by
        rw [hs3, hs3Eq]; simp [hr222, hnp]
      have hs3netSize : s3.netSize = s.netSize := by
        rw [hs3, hs3Eq]; simp [hr222, hns]
      have hs3wf : ∀ n, s3.writeFails n = false := by
        intro n
        rw [hs3, hs3Eq]; simp only [hr222]; rw [hwfp]; exact hwf n
      have hloop : copyLoop tu (fuel + 1) iter notified chunk s
          = copyLoop tu fuel (iter + 1) n1 r.1 s3 := by
        simp only [copyLoop]
        rw [← hs1, ← hn1, ← hr, herr]
        simp
      rw [hloop]
      exact ih fuel (iter + 1) n1 r.1 s3 hs3wf
        (by rw [hs3netPos, hs3netSize]; simp only [chunkSize] at h1 ⊢; omega)
        (by omega)

/-- With the all-false timing oracle (a copy that finishes before
`bufferTime` elapses) the loop never prints the readiness message. -/
theorem copyLoop_tuFalse_readyCount :
    ∀ (fuel iter : Nat) (notified : Bool) (chunk : Nat → Nat) (s : StreamState),
      ((copyLoop tuFalse fuel iter notified chunk s).1).readyCount = s.readyCount := by
  intro fuel
  induction fuel with
  | zero => intro iter notified chunk s; rfl
  | succ fuel ih =>
    intro iter notified chunk s
    simp only [copyLoop, readyStep_tuFalse]
    split
    · rw [writeFS_readyCount, readFull_readyCount]
    · split
      · rw [readFull_readyCount]
      · rw [ih, writeFS_readyCount, readFull_readyCount]

/-- The `readynotified` flag makes the loop print the readiness message at
most once: the final count is bounded by the initial count plus one, and by
the initial count alone when the flag is already set. -/
theorem copyLoop_readyCount_le (tu : Nat → Bool) :
    ∀ (fuel iter : Nat) (notified : Bool) (chunk : Nat → Nat) (s : StreamState),
      ((copyLoop tu fuel iter notified chunk s).1).readyCount
        ≤ s.readyCount + (if notified then 0 else 1) := by
  intro fuel
  induction fuel with
  | zero =>
    intro iter notified chunk s
    simp only [copyLoop]
    split <;> omega
  | succ fuel ih =>
    intro iter notified chunk s
    simp only [copyLoop]
    by_cases htu : (tu iter && !notified) = true
    · have hnotif : notified = false := by
        rcases notified with _ | _
        · rfl
        · simp at htu
      have hrs : readyStep tu iter notified s
          = ({ s with readyCount := s.readyCount + 1 }, true) := by
        simp [readyStep, htu]
      rw [hrs, hnotif]
      dsimp only
      split
      · rw [writeFS_readyCount, readFull_readyCount]; simp
      · split
        · rw [readFull_readyCount]; simp
        · refine le_trans (ih (iter + 1) true _ _) ?_
          rw [writeFS_readyCount, readFull_readyCount]; simp
    · have hrs : readyStep tu iter notified s = (s, notified) := by
        simp only [readyStep]
        rw [if_neg (by simpa using htu)]
      rw [hrs]
      dsimp only
      split
      · rw [writeFS_readyCount, readFull_readyCount]; omega
      · split
        · rw [readFull_readyCount]; omega
        · refine le_trans (ih (iter + 1) notified _ _) ?_
          rw [writeFS_readyCount, readFull_readyCount]

/-- Bandwidth sampling never changes the readiness-message count. -/
theorem getBandwidth_readyCount (s : StreamState) :
    ((getBandwidth s).1).readyCount = s.readyCount := by
  simp only [getBandwidth]
  split <;> (dsimp only; rw [readFull_readyCount])

/-- The pre-loop phase never changes the readiness-message count. -/
theorem preLoop_readyCount (s : StreamState) :
    ((preLoop s).2.1).readyCount = s.readyCount := by
  simp only [preLoop]
  split
  · dsimp only; rw [getBandwidth_readyCount]
  · split
    · dsimp only; rw [seekFS_readyCount, getBandwidth_readyCount]
    · split
      · dsimp only
        rw [writeFS_readyCount, readFull_readyCount, seekFS_readyCount,
          getBandwidth_readyCount]
      · dsimp only
        rw [seekFS_readyCount, writeFS_readyCount, readFull_readyCount,
          seekFS_readyCount, getBandwidth_readyCount]

/-- On a fault-free run over `demoA` the pre-loop phase succeeds and hands
the copy loop a session at offset 0 with fuel 2003. -/
theorem startStream_demoA_red : startStream tuFalse demoA
    = copyLoop tuFalse 2003 0 false (preLoop demoA).1 (preLoop demoA).2.1 := by
  simp only [startStream]
  rw [if_neg (by simp [show (preLoop demoA).2.2 = none from rfl])]
  rw [show ((preLoop demoA).2.1).netSize = 20010001 from rfl]
  norm_num [chunkSize]

theorem startStream_demoB_red : startStream tuFalse demoB
    = copyLoop tuFalse 2004 0 false (preLoop demoB).1 (preLoop demoB).2.1 := by
  simp only [startStream]
  rw [if_neg (by simp [show (preLoop demoB).2.2 = none from rfl])]
  rw [show ((preLoop demoB).2.1).netSize = 20020000 from rfl]
  norm_num [chunkSize]

/-- C1.  `StartStream` on a clean 20,010,001-byte resource returns `nil`,
yet the output file ends up 20,020,000 bytes long: the final partial chunk
is written as a full `chunkSize` write padded with stale buffer bytes, so
the output is not a byte-for-byte copy of the resource. -/
theorem C1_startStream_ok_but_output_padded :
    (startStream tuFalse demoA).2 = none ∧
    ((startStream tuFalse demoA).1).fileSize = 20020000 ∧
    demoA.netSize = 20010001 := by
  rw [startStream_demoA_red]
  obtain ⟨ha, _, hc, _⟩ := copyLoop_partial_ok tuFalse 2001 2003 0 false
    (preLoop demoA).1 (preLoop demoA).2.1
    (fun _ => rfl)
    (by rw [show ((preLoop demoA).2.1).netPos = 0 from rfl,
          show ((preLoop demoA).2.1).netSize = 20010001 from rfl]
        norm_num [chunkSize])
    (by rw [show ((preLoop demoA).2.1).netPos = 0 from rfl,
          show ((preLoop demoA).2.1).netSize = 20010001 from rfl]
        norm_num [chunkSize])
    (by norm_num)
  refine ⟨ha, ?_, rfl⟩
  rw [hc, show ((preLoop demoA).2.1).fileSize = 20010001 from rfl,
    show ((preLoop demoA).2.1).filePos = 0 from rfl]
  norm_num [chunkSize]

/-- C4.  On a clean 20,020,000-byte resource (whose remaining length at the
copy loop is an exact multiple of `chunkSize`) the stream ends with a plain
`io.EOF`, and `StartStream` returns that `io.EOF` as an error instead of
terminating cleanly with `nil`: only `io.ErrUnexpectedEOF` is treated as
end-of-stream. -/
theorem C4_exact_multiple_surfaces_eof :
    (startStream tuFalse demoB).2 = some GoErr.eof := by
  rw [startStream_demoB_red]
  exact copyLoop_exact_eof tuFalse 2002 2004 0 false
    (preLoop demoB).1 (preLoop demoB).2.1
    (fun _ => rfl)
    (by rw [show ((preLoop demoB).2.1).netPos = 0 from rfl,
          show ((preLoop demoB).2.1).netSize = 20020000 from rfl]
        norm_num [chunkSize])
    (by norm_num)

/-- C3.  The copy loop discards the result of `vs.fs.Write(chunk)`: over a
10,001-byte remainder where every local-file write fails, the loop still
returns `nil` and the file still has size 0 — no write error aborts the
transfer or reaches the caller. -/
theorem C3_loop_write_errors_discarded :
    (copyLoop tuFalse 3 0 false (fun _ => 0) demoC).2 = none ∧
    ((copyLoop tuFalse 3 0 false (fun _ => 0) demoC).1).fileSize = 0 := ⟨rfl, rfl⟩

/-- C2.  When `NewVideoStream` fails, `main` prints the error but does not
return; it then calls `vs.StartStream()` with `vs = nil`, a nil-pointer
dereference panic. -/
theorem C2_construction_failure_panics :
    mainRun "http://example.com/video.mkv" 6420000000000 false tuFalse
      (initState (fun _ => 0) 0) = MainOutcome.panicNilDeref := rfl

/-- C6.  A response with no `Content-Length` header makes `NewVideoStream`
evaluate `res.Header["Content-Length"][0]` on a nil slice — an
index-out-of-range panic, not a returned error — and the output file has
already been created by then; a present-but-non-numeric value returns the
`strconv.Atoi` error, also after the file was created. -/
theorem C6_missing_content_length_panics_with_file_created :
    newVideoStream false false false [] = (ConstructResult.panicIndexOutOfRange, true) ∧
    newVideoStream false false false ["abc"] = (ConstructResult.errAtoi, true) :=
  ⟨rfl, rfl⟩

/-- C5 counterexample.  On a 1000-byte resource (smaller than the
20,000,000-byte sample) `getBandwidth` does not complete with the partial
sample: it returns the `io.ErrUnexpectedEOF` from `io.ReadFull` as an
error. -/
theorem C5_short_resource_sampling_fails_cex :
    (getBandwidth (initState (fun _ => 0) 1000)).2 ≠ none ∧
    (getBandwidth (initState (fun _ => 0) 1000)).2 = some GoErr.unexpectedEOF := by
  refine ⟨?_, rfl⟩
  rw [show (getBandwidth (initState (fun _ => 0) 1000)).2
      = some GoErr.unexpectedEOF from rfl]
  simp

/-- C5 amended.  For every resource strictly smaller than the sample size
(and non-empty), `getBandwidth` fails with `io.ErrUnexpectedEOF`: there is
no partial-sample fallback in the code. -/
theorem C5_short_resource_sampling_fails (d : Nat → Nat) (n : Nat)
    (h1 : 0 < n) (h2 : n < sampleSize) :
    (getBandwidth (initState d n)).2 = some GoErr.unexpectedEOF := by
  simp only [getBandwidth]
  rw [readFull_short _ _ _ (by show 0 < n; omega) (by show n < 0 + sampleSize; omega)]
  simp

theorem C5_witness :
    0 < 12345 ∧ 12345 < sampleSize ∧
    (getBandwidth (initState (fun _ => 7) 12345)).2 = some GoErr.unexpectedEOF :=
  ⟨by norm_num, by norm_num [sampleSize, chunkSize],
    C5_short_resource_sampling_fails (fun _ => 7) 12345 (by norm_num)
      (by norm_num [sampleSize, chunkSize])⟩

/-- C7.  The buffer-time computation of `StartStream`, over exact
arithmetic: `downloadTime = (totalSize / bandwidth) * fudgeFactor` with
`fudgeFactor = 1.2`, and `bufferTime = max 0 (downloadTime - duration)`;
hence `bufferTime` is never negative and is 0 whenever
`downloadTime ≤ duration`. -/
theorem C7_buffer_time_formula (sz bw d : Rat) (_hbw : 0 < bw) :
    fudgeFactor = 6 / 5 ∧
    downloadTime sz bw = sz / bw * fudgeFactor ∧
    bufferTime sz bw d = max 0 (downloadTime sz bw - d) ∧
    0 ≤ bufferTime sz bw d ∧
    (downloadTime sz bw ≤ d → bufferTime sz bw d = 0) := by
  refine ⟨by norm_num [fudgeFactor], rfl, rfl, le_max_left 0 _, fun h => ?_⟩
  rw [bufferTime]
  exact max_eq_left (by linarith)

theorem C7_witness :
    0 < (2 : Rat) ∧
    (fudgeFactor = 6 / 5 ∧
      downloadTime 10 2 = 10 / 2 * fudgeFactor ∧
      bufferTime 10 2 100 = max 0 (downloadTime 10 2 - 100) ∧
      0 ≤ bufferTime 10 2 100 ∧
      (downloadTime 10 2 ≤ 100 → bufferTime 10 2 100 = 0)) :=
  ⟨by norm_num, C7_buffer_time_formula 10 2 100 (by norm_num)⟩

/-- C8 counterexample.  On the clean `demoA` run the very first write to
the output file is the chunk at offset 20,000,001 = `Size - chunkSize`
(the "write the last chunk first" step), performed before the copy from
offset 0 begins; only afterwards do the sequential writes from offset 0
follow. -/
theorem C8_last_chunk_written_before_loop :
    ((startStream tuFalse demoA).1).events
        = (20000001, 10000) :: chunkEvents 0 2002 ∧
    20000001 ≠ 0 := by
  refine ⟨?_, by norm_num⟩
  rw [startStream_demoA_red]
  obtain ⟨_, _, _, hd⟩ := copyLoop_partial_ok tuFalse 2001 2003 0 false
    (preLoop demoA).1 (preLoop demoA).2.1
    (fun _ => rfl)
    (by rw [show ((preLoop demoA).2.1).netPos = 0 from rfl,
          show ((preLoop demoA).2.1).netSize = 20010001 from rfl]
        norm_num [chunkSize])
    (by rw [show ((preLoop demoA).2.1).netPos = 0 from rfl,
          show ((preLoop demoA).2.1).netSize = 20010001 from rfl]
        norm_num [chunkSize])
    (by norm_num)
  rw [hd, show ((preLoop demoA).2.1).events = [(20000001, 10000)] from rfl,
    show ((preLoop demoA).2.1).filePos = 0 from rfl]
  norm_num

/-- C8 amended.  The copy loop itself is fully sequential single-stream
I/O: on a fault-free session its writes are exactly the consecutive
chunk-sized records starting at the current file offset, in stream
order. -/
theorem C8_copy_loop_writes_sequential (tu : Nat → Bool) (q fuel iter : Nat)
    (notified : Bool) (chunk : Nat → Nat) (s : StreamState)
    (hwf : ∀ n, s.writeFails n = false)
    (h1 : s.netPos + chunkSize * q < s.netSize)
    (h2 : s.netSize < s.netPos + chunkSize * (q + 1))
    (hf : q + 1 ≤ fuel) :
    ((copyLoop tu fuel iter notified chunk s).1).events
      = s.events ++ chunkEvents s.filePos (q + 1) :=
  (copyLoop_partial_ok tu q fuel iter notified chunk s hwf h1 h2 hf).2.2.2

theorem C8_amended_witness :
    (∀ n, (initState (fun _ => 0) 10001).writeFails n = false) ∧
    (initState (fun _ => 0) 10001).netPos + chunkSize * 1
        < (initState (fun _ => 0) 10001).netSize ∧
    (initState (fun _ => 0) 10001).netSize
        < (initState (fun _ => 0) 10001).netPos + chunkSize * (1 + 1) ∧
    1 + 1 ≤ 2 ∧
    ((copyLoop tuFalse 2 0 false (fun _ => 0) (initState (fun _ => 0) 10001)).1).events
      = (initState (fun _ => 0) 10001).events
          ++ chunkEvents (initState (fun _ => 0) 10001).filePos (1 + 1) :=
  ⟨fun _ => rfl, by decide, by decide, by decide,
    C8_copy_loop_writes_sequential tuFalse 1 2 0 false (fun _ => 0) _
      (fun _ => rfl) (by decide) (by decide) (by decide)⟩

/-- C9 counterexample.  A successful run in which every loop iteration
starts before `bufferTime` has elapsed (the copy finishes early): the run
returns `nil` and the "ready to play" message is printed zero times, not
once. -/
theorem C9_successful_run_with_no_notification :
    (startStream tuFalse demoA).2 = none ∧
    ((startStream tuFalse demoA).1).readyCount = 0 := by
  rw [startStream_demoA_red]
  refine ⟨?_, ?_⟩
  · exact (copyLoop_partial_ok tuFalse 2001 2003 0 false
      (preLoop demoA).1 (preLoop demoA).2.1
      (fun _ => rfl)
      (by rw [show ((preLoop demoA).2.1).netPos = 0 from rfl,
            show ((preLoop demoA).2.1).netSize = 20010001 from rfl]
          norm_num [chunkSize])
      (by rw [show ((preLoop demoA).2.1).netPos = 0 from rfl,
            show ((preLoop demoA).2.1).netSize = 20010001 from rfl]
          norm_num [chunkSize])
      (by norm_num)).1
  · rw [copyLoop_tuFalse_readyCount]
    exact rfl

/-- C9 amended.  The "ready to play" message is printed at most once per
run, for every timing oracle; it can be printed zero times when the copy
finishes before `bufferTime` elapses. -/
theorem C9_ready_notification_at_most_once (tu : Nat → Bool) (s : StreamState)
    (h : s.readyCount = 0) :
    ((startStream tu s).1).readyCount ≤ 1 := by
  simp only [startStream]
  split
  · dsimp only
    rw [preLoop_readyCount, h]
    norm_num
  · refine le_trans (copyLoop_readyCount_le tu _ 0 false _ _) ?_
    rw [preLoop_readyCount, h]
    simp

theorem C9_amended_witness :
    (initState (fun _ => 3) 500).readyCount = 0 ∧
    ((startStream tuFalse (initState (fun _ => 3) 500)).1).readyCount ≤ 1 :=
  ⟨rfl, C9_ready_notification_at_most_once tuFalse (initState (fun _ => 3) 500) rfl⟩

/-- C10.  Supplying `-duration 1s` explicitly is indistinguishable from
omitting it: `main` checks `*duration == time.Second` (the flag's default)
and prints usage, starting no transfer, for every non-empty URL. -/
theorem C10_duration_one_second_means_usage (url : String) (constructOk : Bool)
    (tu : Nat → Bool) (s : StreamState) (_h : url ≠ "") :
    mainRun url goTimeSecond constructOk tu s = MainOutcome.usage := by
  simp [mainRun]

theorem C10_witness :
    ("http://host/movie.mkv" : String) ≠ "" ∧
    mainRun "http://host/movie.mkv" goTimeSecond true tuFalse
      (initState (fun _ => 0) 0) = MainOutcome.usage :=
  ⟨by decide,
    C10_duration_one_second_means_usage "http://host/movie.mkv" true tuFalse
      (initState (fun _ => 0) 0) (by decide)⟩
